import Mathlib

/-!
Shallow embedding of the `canvas` package (canvas.go): a 256-color terminal
painting canvas with cached cursor/color/style state and a pending output
buffer. Go strings and the `bytes.Buffer` are modelled as byte lists
(`List Nat`, each entry an octet), so that the byte-level slicing in
`Write`'s truncation is represented faithfully. Go `int` is modelled as
`Int`. The `mutex` and the optional `Logger` are not modelled; instead the
diagnostic conditions reported through `errorF` are collected in a `diags`
field so that "a diagnostic is signalled" is observable.
-/

namespace CanvasLib

/-- UTF-8 encoding of a single code point, as byte values. -/
def encodeChar (n : Nat) : List Nat :=
  if n < 128 then [n]
  else if n < 2048 then [192 + n / 64, 128 + n % 64]
  else if n < 65536 then [224 + n / 4096, 128 + n / 64 % 64, 128 + n % 64]
  else [240 + n / 262144, 128 + n / 4096 % 64, 128 + n / 64 % 64, 128 + n % 64]

/-- The bytes of a Lean string literal, used to transcribe Go string literals. -/
def strBytes (s : String) : List Nat :=
  s.data.foldr (fun ch acc => encodeChar ch.toNat ++ acc) []

/-- Classification of a UTF-8 leading byte, after Go's `utf8.first` table:
`none` for an invalid leading byte, otherwise `(size, lo, hi)` where `size`
is the encoded length and `[lo, hi]` the accepted range of the second byte. -/
def utf8First (b : Nat) : Option (Nat × Nat × Nat) :=
  if b < 128 then some (1, 128, 191)
  else if b < 194 then none
  else if b ≤ 223 then some (2, 128, 191)
  else if b = 224 then some (3, 160, 191)
  else if b ≤ 236 then some (3, 128, 191)
  else if b = 237 then some (3, 128, 159)
  else if b ≤ 239 then some (3, 128, 191)
  else if b = 240 then some (4, 144, 191)
  else if b ≤ 243 then some (4, 128, 191)
  else if b = 244 then some (4, 128, 143)
  else none

/-- Number of bytes consumed for one rune starting at byte `b` with the
remaining input `rest`, after Go's `utf8.RuneCountInString` loop: any
malformed or incomplete sequence consumes exactly one byte. -/
def runeSize (b : Nat) (rest : List Nat) : Nat :=
  match utf8First b with
  | none => 1
  | some (size, lo, hi) =>
    if size = 1 then 1
    else if rest.length + 1 < size then 1
    else
      let c2 := rest.headD 0
      if c2 < lo ∨ hi < c2 then 1
      else if size = 2 then 2
      else
        let c3 := (rest.drop 1).headD 0
        if c3 < 128 ∨ 191 < c3 then 1
        else if size = 3 then 3
        else
          let c4 := (rest.drop 2).headD 0
          if c4 < 128 ∨ 191 < c4 then 1
          else 4

/-- Fuel-driven rune-count loop; each iteration consumes at least one byte,
so fuel equal to the byte length is always enough. -/
def runeCountFuel : Nat → List Nat → Nat
  | 0, _ => 0
  | _ + 1, [] => 0
  | fuel + 1, b :: rest => 1 + runeCountFuel fuel (rest.drop (runeSize b rest - 1))

/-- Go's `utf8.RuneCountInString` on a byte list. -/
def runeCount (s : List Nat) : Nat := runeCountFuel s.length s

/-- A packed red/green/blue triple with 8-bit components, modelling the
`color.Color` value stored in `Color.RGBA` (the repository only ever stores
opaque RGB colors there). -/
structure RGB where
  r : Nat
  g : Nat
  b : Nat
deriving DecidableEq, Repr

/-- `Color` from canvas.go: either an RGB value (quantized to the 256-color
palette), one of the 256 terminal colors, or the terminal's default color.
`rgba = none` models the nil `RGBA` interface field. -/
structure Color where
  rgba : Option RGB := none
  term256 : Nat := 0
  isDefault : Bool := false
deriving DecidableEq, Repr

def ColorDefault : Color := { isDefault := true }
def ColorBlack : Color := { term256 := 0 }
def ColorRed : Color := { term256 := 1 }
def ColorGreen : Color := { term256 := 2 }
def ColorYellow : Color := { term256 := 3 }
def ColorBlue : Color := { term256 := 4 }
def ColorMagenta : Color := { term256 := 5 }
def ColorCyan : Color := { term256 := 6 }
def ColorLightGray : Color := { term256 := 7 }
def ColorDarkGray : Color := { term256 := 8 }
def ColorLightRed : Color := { term256 := 9 }
def ColorLightGreen : Color := { term256 := 10 }
def ColorLightYellow : Color := { term256 := 11 }
def ColorLightBlue : Color := { term256 := 12 }
def ColorLightMagenta : Color := { term256 := 13 }
def ColorLightCyan : Color := { term256 := 14 }
def ColorWhite : Color := { term256 := 15 }

def StyleNoChange : Int := 1
def StyleNormal : Int := 2
def StyleBold : Int := 4
def StyleDim : Int := 8
def StyleUnderlined : Int := 16
def StyleBlink : Int := 32
def StyleInverted : Int := 64
def StyleHidden : Int := 128

/-- The two recoverable error conditions of canvas.go. -/
inductive GoErr where
  | outOfBounds
  | truncated
deriving DecidableEq, Repr

/-- Squared difference of two channel values. -/
def sqDiff (a b : Nat) : Nat := ((a : Int) - b).natAbs * ((a : Int) - b).natAbs

/-- Squared Euclidean distance between two RGB values. -/
def rgbDist (a b : RGB) : Nat := sqDiff a.r b.r + sqDiff a.g b.g + sqDiff a.b b.b

/-- Modelled from the spec: the 16 system entries of the standard 256-color
terminal palette (`Colors`, whose defining file is not part of the sources
under verification; only its caller `setBgFg` is). Values are the canonical
xterm system colors. -/
def base16 : List RGB :=
  [⟨0, 0, 0⟩, ⟨205, 0, 0⟩, ⟨0, 205, 0⟩, ⟨205, 205, 0⟩,
   ⟨0, 0, 238⟩, ⟨205, 0, 205⟩, ⟨0, 205, 205⟩, ⟨229, 229, 229⟩,
   ⟨127, 127, 127⟩, ⟨255, 0, 0⟩, ⟨0, 255, 0⟩, ⟨255, 255, 0⟩,
   ⟨92, 92, 255⟩, ⟨255, 0, 255⟩, ⟨0, 255, 255⟩, ⟨255, 255, 255⟩]

/-- Channel value of the 6×6×6 color-cube level `n` (0 → 0, k → 55 + 40k). -/
def cubeLevel (n : Nat) : Nat := if n = 0 then 0 else 55 + 40 * n

/-- Modelled from the spec: the full 256-color palette — 16 system colors,
the 6×6×6 color cube (indices 16–231) and the 24-step grayscale ramp
(indices 232–255). -/
def palette256 : List RGB :=
  base16
  ++ (List.range 216).map (fun i => ⟨cubeLevel (i / 36), cubeLevel (i / 6 % 6), cubeLevel (i % 6)⟩)
  ++ (List.range 24).map (fun i => ⟨8 + 10 * i, 8 + 10 * i, 8 + 10 * i⟩)

/-- Argmin scan over the remaining palette entries: `i` is the index of the
head of `l` in the full palette, `best`/`bestD` the best index and distance
so far; a strictly smaller distance takes over, so ties keep the lowest
index. -/
def indexFrom (target : RGB) : List RGB → Nat → Nat → Nat → Nat
  | [], _, best, _ => best
  | p :: ps, i, best, bestD =>
    if rgbDist target p < bestD then indexFrom target ps (i + 1) i (rgbDist target p)
    else indexFrom target ps (i + 1) best bestD

/-- Modelled from the spec: `Colors.Index` — the palette index of the entry
with minimum color distance to the target, ties broken by lowest index. The
initial best distance 195076 exceeds every possible distance between 8-bit
colors (3 · 255² = 195075), playing the role of Go's initial MaxUint32. -/
def ColorsIndex (target : RGB) : Nat := indexFrom target palette256 0 0 195076

/-- The canvas state: dimensions, option flags, the pending output buffer
(`buf`, a `bytes.Buffer` of octets), cached cursor and cached colors/style,
plus the stream of diagnostic conditions reported through `errorF`. -/
structure Canvas where
  width : Int
  height : Int
  cursorOnEnd : Bool := false
  background : Color := {}
  buf : List Nat := []
  x : Int := 0
  y : Int := 0
  fg : Color := {}
  bg : Color := {}
  style : Int := 0
  diags : List GoErr := []
deriving DecidableEq, Repr

/-- Bytes emitted by `setBgFg` for one color request: a reset fragment for
the default sentinel, otherwise a set-256-color fragment whose index comes
from `Colors.Index` for an RGB request and from `Term256` otherwise. -/
def bgFgBytes (clr : Color) (bg : Bool) : List Nat :=
  let op := if bg then "4" else "3"
  if clr.isDefault then strBytes ("\x1b[" ++ op ++ "9m")
  else
    let x256 : Nat :=
      match clr.rgba with
      | some rgb => ColorsIndex rgb
      | none => clr.term256
    strBytes ("\x1b[" ++ op ++ "8;5;" ++ toString x256 ++ "m")

/-- `setBgFg` appends the color fragment to the pending buffer. -/
def Canvas.setBgFg (c : Canvas) (clr : Color) (bg : Bool) : Canvas :=
  { c with buf := c.buf ++ bgFgBytes clr bg }

def Canvas.SetBackground (c : Canvas) (clr : Color) : Canvas :=
  if c.bg = clr then c
  else { Canvas.setBgFg c clr true with bg := clr }

def Canvas.SetForeground (c : Canvas) (clr : Color) : Canvas :=
  if c.fg = clr then c
  else { Canvas.setBgFg c clr false with fg := clr }

/-- Bytes emitted by `SetStyle` past its cache check: the style-reset
fragment if the Normal bit is set, then one fragment per further set
attribute bit, in the source's fixed order. -/
def styleBytes (style : Int) : List Nat :=
  (if Int.land style StyleNormal ≠ 0 then strBytes "\x1b[0m" else [])
  ++ (if Int.land style StyleBold ≠ 0 then strBytes "\x1b[1m" else [])
  ++ (if Int.land style StyleDim ≠ 0 then strBytes "\x1b[2m" else [])
  ++ (if Int.land style StyleUnderlined ≠ 0 then strBytes "\x1b[4m" else [])
  ++ (if Int.land style StyleBlink ≠ 0 then strBytes "\x1b[5m" else [])
  ++ (if Int.land style StyleInverted ≠ 0 then strBytes "\x1b[7m" else [])
  ++ (if Int.land style StyleHidden ≠ 0 then strBytes "\x1b[8m" else [])

def Canvas.SetStyle (c : Canvas) (style : Int) : Canvas :=
  if c.style = style then c
  else { c with buf := c.buf ++ styleBytes style, style := style }

/-- One relative-motion escape fragment: ESC `[`, the repeat count, and a
directional opcode. -/
def moveFrag (num : Nat) (op : String) : List Nat :=
  strBytes ("\x1b[" ++ toString num ++ op)

/-- The `move` closure inside `Move`: emits the forward opcode with repeat
`given - curr` when moving forward, the backward opcode with repeat
`curr - given` when moving backward, and nothing when the delta is zero. -/
def moveBytes (curr given : Int) (forwardOp backwardOp : String) : List Nat :=
  if curr < given then moveFrag (given - curr).toNat forwardOp
  else if curr > given then moveFrag (curr - given).toNat backwardOp
  else []

def Canvas.Move (c : Canvas) (x y : Int) : Canvas × Option GoErr :=
  if c.x = x ∧ c.y = y then (c, none)
  else if x > c.width - 1 ∨ x < 0 ∨ y > c.height - 1 ∨ y < 0 then
    ({ c with diags := c.diags ++ [GoErr.outOfBounds] }, some GoErr.outOfBounds)
  else
    ({ c with
        buf := c.buf ++ moveBytes c.x x "C" "D" ++ moveBytes c.y y "B" "A",
        x := x, y := y }, none)

/-- The text actually appended by `Write`: when the rune count exceeds the
remaining columns `r = width - x`, the raw byte slice `text[0:r]` of the
source — note the source's own TODO that this can split a rune. A negative
slice bound would panic in Go and cannot arise from an in-bounds cursor;
`Int.toNat` maps it to an empty slice here. -/
def writtenText (c : Canvas) (text : List Nat) : List Nat :=
  if (runeCount text : Int) > c.width - c.x then text.take (c.width - c.x).toNat else text

/-- `Write`: truncates to the remaining columns (signalling `Truncated`),
appends, advances the cursor by the rune count of what was appended, and
clamps back to the last column by an internal `Move` when the cursor would
reach or pass the right edge. -/
def Canvas.Write (c : Canvas) (text : List Nat) : Canvas :=
  let c1 : Canvas :=
    { c with
        buf := c.buf ++ writtenText c text,
        x := c.x + (runeCount (writtenText c text) : Int),
        diags := if (runeCount text : Int) > c.width - c.x then c.diags ++ [GoErr.truncated]
                 else c.diags }
  if c1.x ≥ c1.width then (Canvas.Move c1 (c1.width - 1) c1.y).1 else c1

def Canvas.Set (c : Canvas) (x y : Int) (char : Char) : Canvas :=
  match Canvas.Move c x y with
  | (c2, none) => Canvas.Write c2 (strBytes (String.singleton char))
  | (c2, some _) => c2

def Canvas.WriteAt (c : Canvas) (x y : Int) (foreground background : Color)
    (style : Int) (text : List Nat) : Canvas :=
  match Canvas.Move c x y with
  | (c2, some _) => c2
  | (c2, none) =>
    Canvas.Write
      (Canvas.SetBackground (Canvas.SetForeground (Canvas.SetStyle c2 style) foreground)
        background) text

/-- `Flush` returns the new canvas state together with the byte sequence
written to the terminal in the single `Printf` call. -/
def Canvas.Flush (c : Canvas) : Canvas × List Nat :=
  let c1 := if c.cursorOnEnd then (Canvas.Move c (c.width - 1) (c.height - 1)).1 else c
  ({ c1 with buf := [] }, c1.buf)

/-- Row separator inside the `NewCanvas` pre-fill loop: reset the background
to default (so columns past the canvas width are not colored), newline,
restore the requested background. -/
def rowSep (c : Canvas) (background : Color) : Canvas :=
  let c1 := Canvas.SetBackground c ColorDefault
  let c2 : Canvas := { c1 with buf := c1.buf ++ [10] }
  Canvas.SetBackground c2 background

/-- The `NewCanvas` pre-fill loop with `k` rows remaining: each row writes
`width` blanks directly into the buffer, followed by a separator on every
row but the last. -/
def prefillRows (background : Color) : Nat → Canvas → Canvas
  | 0, c => c
  | k + 1, c =>
    let c1 : Canvas := { c with buf := c.buf ++ List.replicate c.width.toNat 32 }
    if k = 0 then c1 else prefillRows background k (rowSep c1 background)

/-- The canvas state inside `NewCanvas` right before the forced first
`Move(0,0)`: background and style applied, blank block emitted, and the
cursor deliberately placed at `(width, height-1)` — the x coordinate one
past the valid range. -/
def newCanvasPre (width height : Int) (background : Color) : Canvas :=
  let c : Canvas := { width := width, height := height, background := background }
  let c1 := Canvas.SetBackground c background
  let c2 := Canvas.SetStyle c1 StyleNormal
  let c3 := prefillRows background height.toNat c2
  { c3 with x := width, y := height - 1 }

/-- `NewCanvas`: pre-fill, the forced move to the origin, and the initial
flush; returns the constructed canvas and the flushed bytes. -/
def NewCanvas (width height : Int) (background : Color) : Canvas × List Nat :=
  Canvas.Flush (Canvas.Move (newCanvasPre width height background) 0 0).1

/-- Inner loop of `Clear`: write `n` single blanks through `Write`. -/
def writeSpaces : Nat → Canvas → Canvas
  | 0, c => c
  | n + 1, c => writeSpaces n (Canvas.Write c [32])

/-- Row loop of `Clear`: at row index `i` with `k` iterations remaining,
blank the row and move to the start of the next row unless on the last. -/
def clearRows : Nat → Nat → Canvas → Canvas
  | _, 0, c => c
  | i, k + 1, c =>
    let c1 := writeSpaces c.width.toNat c
    let c2 := if (i : Int) < c1.height - 1 then (Canvas.Move c1 0 ((i : Int) + 1)).1 else c1
    clearRows (i + 1) k c2

def Canvas.Clear (c : Canvas) : Canvas :=
  let c1 := (Canvas.Move c 0 0).1
  let c2 := clearRows 0 c1.height.toNat c1
  (Canvas.Move c2 0 0).1

/-- The in-bounds cursor predicate of the documented invariant. -/
def InBounds (c : Canvas) : Prop :=
  0 ≤ c.x ∧ c.x < c.width ∧ 0 ≤ c.y ∧ c.y < c.height

instance (c : Canvas) : Decidable (InBounds c) := by
  unfold InBounds; infer_instance

/-- One public drawing operation (the thread-safe variants perform the same
state transition under the mutex and are represented by the same
constructors). -/
inductive Op where
  | move (x y : Int)
  | write (text : List Nat)
  | set (x y : Int) (char : Char)
  | writeAt (x y : Int) (foreground background : Color) (style : Int) (text : List Nat)
  | setForeground (clr : Color)
  | setBackground (clr : Color)
  | setStyle (style : Int)
  | clear
  | flush

def applyOp (c : Canvas) : Op → Canvas
  | Op.move x y => (Canvas.Move c x y).1
  | Op.write text => Canvas.Write c text
  | Op.set x y char => Canvas.Set c x y char
  | Op.writeAt x y f b s t => Canvas.WriteAt c x y f b s t
  | Op.setForeground clr => Canvas.SetForeground c clr
  | Op.setBackground clr => Canvas.SetBackground c clr
  | Op.setStyle s => Canvas.SetStyle c s
  | Op.clear => Canvas.Clear c
  | Op.flush => (Canvas.Flush c).1

def applyOps (c : Canvas) (ops : List Op) : Canvas := ops.foldl applyOp c

/-- Modelled from the spec: truncation to a given number of whole
characters (runes) — what §9 of the spec prescribes in place of the byte
slice. Character boundaries are found with the same `runeSize` scan. -/
def runeTakeFuel : Nat → Nat → List Nat → List Nat
  | 0, _, _ => []
  | _ + 1, 0, _ => []
  | _ + 1, _, [] => []
  | fuel + 1, n + 1, b :: rest =>
    (b :: rest.take (runeSize b rest - 1)) ++ runeTakeFuel fuel n (rest.drop (runeSize b rest - 1))

/-- The first `n` whole runes of a byte sequence. -/
def runeTake (n : Nat) (s : List Nat) : List Nat := runeTakeFuel s.length n s

/-- Default element for palette lookups. -/
def pal0 : RGB := ⟨0, 0, 0⟩

/-- A small freshly constructed 4×3 canvas used as a concrete witness
state; its cursor is at the origin and its buffer is empty. -/
def demo : Canvas := (NewCanvas 4 3 ColorBlack).1

/-- The witness canvas with the cursor-to-end option enabled. -/
def demoEnd : Canvas := { demo with cursorOnEnd := true }

/-- A freshly constructed 3×1 canvas for the truncation demonstration. -/
def demo3 : Canvas := (NewCanvas 3 1 ColorBlack).1

/-- The UTF-8 bytes of the string "éééa": three two-byte runes and one
ASCII byte. -/
def textEEEA : List Nat := [195, 169, 195, 169, 195, 169, 97]

/-- An RGB color request (a strong red) used as a concrete witness. -/
def clrDemo : Color := { rgba := some ⟨250, 10, 10⟩, term256 := 0, isDefault := false }

/-- A concrete sequence of public drawing operations used as a witness for
the cursor invariant. -/
def demoOps : List Op :=
  [Op.move 2 1, Op.write [104, 105], Op.set 0 0 'Z',
   Op.writeAt 1 2 ColorRed ColorBlue StyleBold [104], Op.setStyle 4,
   Op.setForeground ColorRed, Op.setBackground ColorDefault, Op.clear, Op.flush,
   Op.move 10 10]

theorem strBytes_foldr (l : List Char) (acc : List Nat) :
    l.foldr (fun ch acc => encodeChar ch.toNat ++ acc) acc
      = l.foldr (fun ch acc => encodeChar ch.toNat ++ acc) [] ++ acc := by
  induction l with
  | nil => rfl
  | cons ch l ih => simp only [List.foldr_cons, ih, List.append_assoc]

theorem strBytes_append (a b : String) : strBytes (a ++ b) = strBytes a ++ strBytes b := by
  unfold strBytes
  rw [String.data_append, List.foldr_append, strBytes_foldr]

theorem moveFrag_ne_nil (n : Nat) (op : String) : moveFrag n op ≠ [] := by
  unfold moveFrag
  rw [show ("\x1b[" ++ toString n ++ op) = "\x1b[" ++ (toString n ++ op) from
        (String.append_assoc _ _ _), strBytes_append]
  intro h
  have := congrArg List.length h
  simp [strBytes, encodeChar] at this

theorem moveBytes_eq (a b : Int) (f bw : String) :
    moveBytes a b f bw
      = if b = a then [] else moveFrag (b - a).natAbs (if a < b then f else bw) := by
  unfold moveBytes
  rcases lt_trichotomy a b with h | h | h
  · rw [if_pos h, if_neg (by omega), if_pos h]
    congr 1
    omega
  · subst h
    simp
  · rw [if_neg (by omega), if_pos h, if_neg (by omega), if_neg (by omega)]
    congr 1
    omega

theorem Move_width (c : Canvas) (x y : Int) : (Canvas.Move c x y).1.width = c.width := by
  unfold Canvas.Move
  split
  · rfl
  · split <;> rfl

theorem Move_height (c : Canvas) (x y : Int) : (Canvas.Move c x y).1.height = c.height := by
  unfold Canvas.Move
  split
  · rfl
  · split <;> rfl

theorem Move_inbounds_pres (c : Canvas) (x y : Int) (hc : InBounds c) :
    InBounds (Canvas.Move c x y).1 := by
  obtain ⟨hx0, hx1, hy0, hy1⟩ := hc
  unfold InBounds Canvas.Move
  split
  · exact ⟨hx0, hx1, hy0, hy1⟩
  · split
    · exact ⟨hx0, hx1, hy0, hy1⟩
    · next h => dsimp only; omega

theorem SetStyle_cached (c : Canvas) (s : Int) (h : c.style = s) : Canvas.SetStyle c s = c := by
  unfold Canvas.SetStyle
  rw [if_pos h]

theorem SetStyle_style (c : Canvas) (s : Int) : (Canvas.SetStyle c s).style = s := by
  unfold Canvas.SetStyle
  split
  · next h => exact h
  · rfl

theorem SetForeground_fields (c : Canvas) (clr : Color) :
    (Canvas.SetForeground c clr).x = c.x ∧ (Canvas.SetForeground c clr).y = c.y ∧
    (Canvas.SetForeground c clr).width = c.width ∧
    (Canvas.SetForeground c clr).height = c.height := by
  unfold Canvas.SetForeground Canvas.setBgFg
  split <;> exact ⟨rfl, rfl, rfl, rfl⟩

theorem SetBackground_fields (c : Canvas) (clr : Color) :
    (Canvas.SetBackground c clr).x = c.x ∧ (Canvas.SetBackground c clr).y = c.y ∧
    (Canvas.SetBackground c clr).width = c.width ∧
    (Canvas.SetBackground c clr).height = c.height := by
  unfold Canvas.SetBackground Canvas.setBgFg
  split <;> exact ⟨rfl, rfl, rfl, rfl⟩

theorem SetStyle_fields (c : Canvas) (s : Int) :
    (Canvas.SetStyle c s).x = c.x ∧ (Canvas.SetStyle c s).y = c.y ∧
    (Canvas.SetStyle c s).width = c.width ∧ (Canvas.SetStyle c s).height = c.height := by
  unfold Canvas.SetStyle
  split <;> exact ⟨rfl, rfl, rfl, rfl⟩

theorem InBounds_of_fields (c d : Canvas)
    (h : d.x = c.x ∧ d.y = c.y ∧ d.width = c.width ∧ d.height = c.height)
    (hc : InBounds c) : InBounds d := by
  unfold InBounds at hc ⊢
  obtain ⟨h1, h2, h3, h4⟩ := h
  omega

theorem Write_inbounds_pres (c : Canvas) (t : List Nat) (hc : InBounds c) :
    InBounds (Canvas.Write c t) := by
  obtain ⟨hx0, hx1, hy0, hy1⟩ := hc
  unfold Canvas.Write
  dsimp only
  by_cases hcl : c.x + (runeCount (writtenText c t) : Int) ≥ c.width
  · rw [if_pos hcl]
    unfold Canvas.Move
    rw [if_neg (by dsimp only; rintro ⟨h1, -⟩; omega), if_neg (by dsimp only; omega)]
    unfold InBounds
    dsimp only
    omega
  · rw [if_neg hcl]
    unfold InBounds
    dsimp only
    omega

theorem Set_inbounds_pres (c : Canvas) (x y : Int) (ch : Char) (hc : InBounds c) :
    InBounds (Canvas.Set c x y ch) := by
  unfold Canvas.Set
  rcases hm : Canvas.Move c x y with ⟨c2, e⟩
  have h2 : InBounds c2 := by
    have h := Move_inbounds_pres c x y hc
    rw [hm] at h
    exact h
  cases e
  · exact Write_inbounds_pres _ _ h2
  · exact h2

theorem WriteAt_inbounds_pres (c : Canvas) (x y : Int) (f b : Color) (s : Int)
    (t : List Nat) (hc : InBounds c) : InBounds (Canvas.WriteAt c x y f b s t) := by
  unfold Canvas.WriteAt
  rcases hm : Canvas.Move c x y with ⟨c2, e⟩
  have h2 : InBounds c2 := by
    have h := Move_inbounds_pres c x y hc
    rw [hm] at h
    exact h
  cases e
  · refine Write_inbounds_pres _ _ ?_
    refine InBounds_of_fields _ _ (SetBackground_fields _ _) ?_
    refine InBounds_of_fields _ _ (SetForeground_fields _ _) ?_
    exact InBounds_of_fields _ _ (SetStyle_fields _ _) h2
  · exact h2

theorem writeSpaces_inbounds_pres (n : Nat) (c : Canvas) (hc : InBounds c) :
    InBounds (writeSpaces n c) := by
  induction n generalizing c with
  | zero => exact hc
  | succ n ih => exact ih _ (Write_inbounds_pres _ _ hc)

theorem clearRows_inbounds_pres (k i : Nat) (c : Canvas) (hc : InBounds c) :
    InBounds (clearRows i k c) := by
  induction k generalizing i c with
  | zero => exact hc
  | succ k ih =>
    refine ih _ _ ?_
    have h1 := writeSpaces_inbounds_pres c.width.toNat c hc
    split
    · exact Move_inbounds_pres _ _ _ h1
    · exact h1

theorem Clear_inbounds_pres (c : Canvas) (hc : InBounds c) :
    InBounds (Canvas.Clear c) := by
  unfold Canvas.Clear
  exact Move_inbounds_pres _ _ _ (clearRows_inbounds_pres _ _ _ (Move_inbounds_pres _ _ _ hc))

theorem buf_clear_inbounds (c : Canvas) (hc : InBounds c) :
    InBounds { c with buf := [] } := by
  unfold InBounds at hc ⊢
  exact hc

theorem Flush_inbounds_pres (c : Canvas) (hc : InBounds c) :
    InBounds (Canvas.Flush c).1 := by
  unfold Canvas.Flush
  dsimp only
  split
  · exact buf_clear_inbounds _ (Move_inbounds_pres _ _ _ hc)
  · exact buf_clear_inbounds _ hc

theorem SetForeground_inbounds_pres (c : Canvas) (clr : Color) (hc : InBounds c) :
    InBounds (Canvas.SetForeground c clr) :=
  InBounds_of_fields _ _ (SetForeground_fields _ _) hc

theorem SetBackground_inbounds_pres (c : Canvas) (clr : Color) (hc : InBounds c) :
    InBounds (Canvas.SetBackground c clr) :=
  InBounds_of_fields _ _ (SetBackground_fields _ _) hc

theorem SetStyle_inbounds_pres (c : Canvas) (s : Int) (hc : InBounds c) :
    InBounds (Canvas.SetStyle c s) :=
  InBounds_of_fields _ _ (SetStyle_fields _ _) hc

theorem applyOp_inbounds_pres (c : Canvas) (op : Op) (hc : InBounds c) :
    InBounds (applyOp c op) := by
  cases op with
  | move x y => exact Move_inbounds_pres _ _ _ hc
  | write t => exact Write_inbounds_pres _ _ hc
  | set x y ch => exact Set_inbounds_pres _ _ _ _ hc
  | writeAt x y f b s t => exact WriteAt_inbounds_pres _ _ _ _ _ _ _ hc
  | setForeground clr => exact SetForeground_inbounds_pres _ _ hc
  | setBackground clr => exact SetBackground_inbounds_pres _ _ hc
  | setStyle s => exact SetStyle_inbounds_pres _ _ hc
  | clear => exact Clear_inbounds_pres _ hc
  | flush => exact Flush_inbounds_pres _ hc

theorem applyOps_inbounds_pres (ops : List Op) (c : Canvas) (hc : InBounds c) :
    InBounds (applyOps c ops) := by
  induction ops generalizing c with
  | nil => exact hc
  | cons op ops ih => exact ih _ (applyOp_inbounds_pres _ _ hc)

theorem rowSep_fields (c : Canvas) (bg : Color) :
    (rowSep c bg).x = c.x ∧ (rowSep c bg).y = c.y ∧
    (rowSep c bg).width = c.width ∧ (rowSep c bg).height = c.height := by
  unfold rowSep
  refine ⟨?_, ?_, ?_, ?_⟩
  · rw [(SetBackground_fields _ _).1]
    exact (SetBackground_fields _ _).1
  · rw [(SetBackground_fields _ _).2.1]
    exact (SetBackground_fields _ _).2.1
  · rw [(SetBackground_fields _ _).2.2.1]
    exact (SetBackground_fields _ _).2.2.1
  · rw [(SetBackground_fields _ _).2.2.2]
    exact (SetBackground_fields _ _).2.2.2

theorem SetBackground_cursorOnEnd (c : Canvas) (clr : Color) :
    (Canvas.SetBackground c clr).cursorOnEnd = c.cursorOnEnd := by
  unfold Canvas.SetBackground Canvas.setBgFg
  split <;> rfl

theorem SetStyle_cursorOnEnd (c : Canvas) (s : Int) :
    (Canvas.SetStyle c s).cursorOnEnd = c.cursorOnEnd := by
  unfold Canvas.SetStyle
  split <;> rfl

theorem rowSep_cursorOnEnd (c : Canvas) (bg : Color) :
    (rowSep c bg).cursorOnEnd = c.cursorOnEnd := by
  unfold rowSep
  rw [SetBackground_cursorOnEnd]
  exact SetBackground_cursorOnEnd _ _

theorem prefillRows_cursorOnEnd (bg : Color) (k : Nat) (c : Canvas) :
    (prefillRows bg k c).cursorOnEnd = c.cursorOnEnd := by
  induction k generalizing c with
  | zero => rfl
  | succ k ih =>
    unfold prefillRows
    dsimp only
    split
    · rfl
    · rw [ih, rowSep_cursorOnEnd]

theorem prefillRows_fields (bg : Color) (k : Nat) (c : Canvas) :
    (prefillRows bg k c).x = c.x ∧ (prefillRows bg k c).y = c.y ∧
    (prefillRows bg k c).width = c.width ∧ (prefillRows bg k c).height = c.height := by
  induction k generalizing c with
  | zero => exact ⟨rfl, rfl, rfl, rfl⟩
  | succ k ih =>
    unfold prefillRows
    dsimp only
    split
    · exact ⟨rfl, rfl, rfl, rfl⟩
    · have h2 := rowSep_fields { c with buf := c.buf ++ List.replicate c.width.toNat 32 } bg
      have h1 := ih (rowSep { c with buf := c.buf ++ List.replicate c.width.toNat 32 } bg)
      refine ⟨?_, ?_, ?_, ?_⟩
      · rw [h1.1, h2.1]
      · rw [h1.2.1, h2.2.1]
      · rw [h1.2.2.1, h2.2.2.1]
      · rw [h1.2.2.2, h2.2.2.2]

theorem newCanvasPre_fields (w h : Int) (bg : Color) :
    (newCanvasPre w h bg).x = w ∧ (newCanvasPre w h bg).y = h - 1 ∧
    (newCanvasPre w h bg).width = w ∧ (newCanvasPre w h bg).height = h ∧
    (newCanvasPre w h bg).cursorOnEnd = false := by
  unfold newCanvasPre
  dsimp only
  have base : Canvas := { width := w, height := h, background := bg }
  refine ⟨rfl, rfl, ?_, ?_, ?_⟩
  · rw [show ({ (prefillRows bg h.toNat
          (Canvas.SetStyle (Canvas.SetBackground { width := w, height := h, background := bg } bg)
            StyleNormal)) with x := w, y := h - 1 } : Canvas).width
        = (prefillRows bg h.toNat
            (Canvas.SetStyle (Canvas.SetBackground { width := w, height := h, background := bg } bg)
              StyleNormal)).width from rfl]
    rw [(prefillRows_fields _ _ _).2.2.1, (SetStyle_fields _ _).2.2.1,
      (SetBackground_fields _ _).2.2.1]
  · rw [show ({ (prefillRows bg h.toNat
          (Canvas.SetStyle (Canvas.SetBackground { width := w, height := h, background := bg } bg)
            StyleNormal)) with x := w, y := h - 1 } : Canvas).height
        = (prefillRows bg h.toNat
            (Canvas.SetStyle (Canvas.SetBackground { width := w, height := h, background := bg } bg)
              StyleNormal)).height from rfl]
    rw [(prefillRows_fields _ _ _).2.2.2, (SetStyle_fields _ _).2.2.2,
      (SetBackground_fields _ _).2.2.2]
  · rw [show ({ (prefillRows bg h.toNat
          (Canvas.SetStyle (Canvas.SetBackground { width := w, height := h, background := bg } bg)
            StyleNormal)) with x := w, y := h - 1 } : Canvas).cursorOnEnd
        = (prefillRows bg h.toNat
            (Canvas.SetStyle (Canvas.SetBackground { width := w, height := h, background := bg } bg)
              StyleNormal)).cursorOnEnd from rfl]
    rw [prefillRows_cursorOnEnd, SetStyle_cursorOnEnd, SetBackground_cursorOnEnd]

theorem Move_cursorOnEnd (c : Canvas) (x y : Int) :
    (Canvas.Move c x y).1.cursorOnEnd = c.cursorOnEnd := by
  unfold Canvas.Move
  split
  · rfl
  · split <;> rfl

theorem NewCanvas_inbounds (w h : Int) (bg : Color) (hw : 0 < w) (hh : 0 < h) :
    InBounds (NewCanvas w h bg).1 := by
  obtain ⟨hx, hy, hwdt, hhgt, hcoe⟩ := newCanvasPre_fields w h bg
  have hm : InBounds (Canvas.Move (newCanvasPre w h bg) 0 0).1 := by
    unfold Canvas.Move
    rw [if_neg (by rintro ⟨h1, -⟩; omega)]
    rw [if_neg (by omega)]
    unfold InBounds
    dsimp only
    omega
  have hcoe2 : ¬ ((Canvas.Move (newCanvasPre w h bg) 0 0).1.cursorOnEnd = true) := by
    rw [Move_cursorOnEnd, hcoe]
    exact Bool.false_ne_true
  unfold NewCanvas Canvas.Flush
  dsimp only
  rw [if_neg hcoe2]
  exact buf_clear_inbounds _ hm

theorem indexFrom_cases (t : RGB) (l : List RGB) (i best bestD : Nat) :
    (indexFrom t l i best bestD = best ∧
      ∀ j, j < l.length → bestD ≤ rgbDist t (l.getD j pal0))
    ∨ (∃ j, j < l.length ∧
        indexFrom t l i best bestD = i + j ∧
        rgbDist t (l.getD j pal0) < bestD ∧
        (∀ k, k < l.length → rgbDist t (l.getD j pal0) ≤ rgbDist t (l.getD k pal0)) ∧
        (∀ k, k < j → rgbDist t (l.getD j pal0) < rgbDist t (l.getD k pal0))) := by
  induction l generalizing i best bestD with
  | nil =>
    left
    exact ⟨rfl, fun j hj => absurd hj (by simp)⟩
  | cons p ps ih =>
    by_cases hd : rgbDist t p < bestD
    · rw [show indexFrom t (p :: ps) i best bestD
          = indexFrom t ps (i + 1) i (rgbDist t p) from by
        simp only [indexFrom]; rw [if_pos hd]]
      rcases ih (i + 1) i (rgbDist t p) with ⟨heq, hall⟩ | ⟨j, hj, heq, hlt, hmin, hfirst⟩
      · right
        refine ⟨0, by simp, by rw [heq]; omega, by simpa using hd, ?_, ?_⟩
        · intro k hk
          cases k with
          | zero => simp
          | succ k =>
            simp only [List.getD_cons_succ, List.getD_cons_zero]
            exact hall k (by simpa using hk)
        · intro k hk
          omega
      · right
        refine ⟨j + 1, by simpa using hj, by rw [heq]; omega, ?_, ?_, ?_⟩
        · simp only [List.getD_cons_succ]
          exact hlt.trans hd
        · intro k hk
          cases k with
          | zero =>
            simp only [List.getD_cons_succ, List.getD_cons_zero]
            exact le_of_lt hlt
          | succ k =>
            simp only [List.getD_cons_succ]
            exact hmin k (by simpa using hk)
        · intro k hk
          cases k with
          | zero =>
            simp only [List.getD_cons_succ, List.getD_cons_zero]
            exact hlt
          | succ k =>
            simp only [List.getD_cons_succ]
            exact hfirst k (by omega)
    · rw [show indexFrom t (p :: ps) i best bestD
          = indexFrom t ps (i + 1) best bestD from by
        simp only [indexFrom]; rw [if_neg hd]]
      rcases ih (i + 1) best bestD with ⟨heq, hall⟩ | ⟨j, hj, heq, hlt, hmin, hfirst⟩
      · left
        refine ⟨heq, ?_⟩
        intro k hk
        cases k with
        | zero => simpa using le_of_not_lt hd
        | succ k =>
          simp only [List.getD_cons_succ]
          exact hall k (by simpa using hk)
      · right
        refine ⟨j + 1, by simpa using hj, by rw [heq]; omega, ?_, ?_, ?_⟩
        · simp only [List.getD_cons_succ]
          exact hlt
        · intro k hk
          cases k with
          | zero =>
            simp only [List.getD_cons_succ, List.getD_cons_zero]
            exact le_of_lt (hlt.trans_le (le_of_not_lt hd))
          | succ k =>
            simp only [List.getD_cons_succ]
            exact hmin k (by simpa using hk)
        · intro k hk
          cases k with
          | zero =>
            simp only [List.getD_cons_succ, List.getD_cons_zero]
            exact hlt.trans_le (le_of_not_lt hd)
          | succ k =>
            simp only [List.getD_cons_succ]
            exact hfirst k (by omega)

theorem sqDiff_le (a b : Nat) (ha : a ≤ 255) (hb : b ≤ 255) : sqDiff a b ≤ 65025 := by
  unfold sqDiff
  have h : ((a : Int) - b).natAbs ≤ 255 := by omega
  calc ((a : Int) - b).natAbs * ((a : Int) - b).natAbs
      ≤ 255 * 255 := Nat.mul_le_mul h h
    _ = 65025 := by norm_num

set_option maxRecDepth 4000 in
theorem palette256_bounded :
    ∀ p ∈ palette256, p.r ≤ 255 ∧ p.g ≤ 255 ∧ p.b ≤ 255 := by decide

set_option maxRecDepth 4000 in
theorem palette256_length : palette256.length = 256 := by decide

theorem rgbDist_le (t p : RGB) (hr : t.r ≤ 255) (hg : t.g ≤ 255) (hb : t.b ≤ 255)
    (hp : p.r ≤ 255 ∧ p.g ≤ 255 ∧ p.b ≤ 255) : rgbDist t p ≤ 195075 := by
  unfold rgbDist
  have h1 := sqDiff_le t.r p.r hr hp.1
  have h2 := sqDiff_le t.g p.g hg hp.2.1
  have h3 := sqDiff_le t.b p.b hb hp.2.2
  omega

theorem ColorsIndex_spec (t : RGB) (hr : t.r ≤ 255) (hg : t.g ≤ 255) (hb : t.b ≤ 255) :
    ColorsIndex t < 256 ∧
    (∀ j, j < 256 →
      rgbDist t (palette256.getD (ColorsIndex t) pal0) ≤ rgbDist t (palette256.getD j pal0)) ∧
    (∀ j, j < ColorsIndex t →
      rgbDist t (palette256.getD (ColorsIndex t) pal0) < rgbDist t (palette256.getD j pal0)) := by
  unfold ColorsIndex
  rcases indexFrom_cases t palette256 0 0 195076 with ⟨heq, hall⟩ | ⟨j, hj, heq, hlt, hmin, hfirst⟩
  · exfalso
    have h0 : (0 : Nat) < palette256.length := by rw [palette256_length]; omega
    have hle := rgbDist_le t (palette256.getD 0 pal0) hr hg hb (by decide)
    have := hall 0 h0
    omega
  · rw [heq]
    simp only [Nat.zero_add]
    rw [palette256_length] at hj hmin
    exact ⟨hj, hmin, hfirst⟩

/-- C1: For a canvas whose cached cursor is in bounds and any in-bounds
target (x, y), `Move` succeeds and appends to the pending buffer exactly one
horizontal motion fragment with repeat count |x − cursor.x| (omitted
entirely when the horizontal delta is zero) followed by exactly one vertical
motion fragment with repeat count |y − cursor.y| (omitted entirely when the
vertical delta is zero), and nothing else; a `Move` to the cached cursor
position leaves the canvas untouched and appends nothing. -/
theorem move_minimal_emission (c : Canvas) (x y : Int) (hc : InBounds c)
    (hx0 : 0 ≤ x) (hx1 : x < c.width) (hy0 : 0 ≤ y) (hy1 : y < c.height) :
    (Canvas.Move c x y).2 = none ∧
    (Canvas.Move c x y).1.buf =
      c.buf
      ++ (if x = c.x then [] else moveFrag (x - c.x).natAbs (if c.x < x then "C" else "D"))
      ++ (if y = c.y then [] else moveFrag (y - c.y).natAbs (if c.y < y then "B" else "A")) ∧
    (x = c.x → y = c.y → Canvas.Move c x y = (c, none)) := by
  unfold Canvas.Move
  split
  · next h =>
    obtain ⟨h1, h2⟩ := h
    refine ⟨rfl, ?_, fun _ _ => rfl⟩
    rw [if_pos h1.symm, if_pos h2.symm]
    simp
  · next hne =>
    split
    · next hb => exfalso; omega
    · refine ⟨rfl, ?_, ?_⟩
      · dsimp only
        rw [moveBytes_eq, moveBytes_eq]
      · intro h1 h2
        exact absurd ⟨h1.symm, h2.symm⟩ hne

/-- Witness for `move_minimal_emission`: the 4×3 demo canvas with cursor at
the origin, moved to (2, 1). -/
theorem move_minimal_emission_witness :
    InBounds demo ∧
    ((Canvas.Move demo 2 1).2 = none ∧
     (Canvas.Move demo 2 1).1.buf =
       demo.buf
       ++ (if (2 : Int) = demo.x then []
           else moveFrag ((2 : Int) - demo.x).natAbs (if demo.x < 2 then "C" else "D"))
       ++ (if (1 : Int) = demo.y then []
           else moveFrag ((1 : Int) - demo.y).natAbs (if demo.y < 1 then "B" else "A")) ∧
     ((2 : Int) = demo.x → (1 : Int) = demo.y → Canvas.Move demo 2 1 = (demo, none))) :=
  ⟨by decide,
   move_minimal_emission demo 2 1 (by decide) (by decide) (by decide) (by decide) (by decide)⟩

/-- C2: For a canvas whose cached cursor is in bounds, `Move` to any target
with x < 0, x ≥ width, y < 0 or y ≥ height returns the `OutOfBounds` error
and leaves the cached cursor (and the pending buffer) unchanged. -/
theorem move_out_of_bounds (c : Canvas) (x y : Int) (hc : InBounds c)
    (h : x < 0 ∨ x ≥ c.width ∨ y < 0 ∨ y ≥ c.height) :
    (Canvas.Move c x y).2 = some GoErr.outOfBounds ∧
    (Canvas.Move c x y).1.x = c.x ∧ (Canvas.Move c x y).1.y = c.y ∧
    (Canvas.Move c x y).1.buf = c.buf := by
  obtain ⟨hx0, hx1, hy0, hy1⟩ := hc
  unfold Canvas.Move
  rw [if_neg (by rintro ⟨h1, h2⟩; omega), if_pos (by omega)]
  exact ⟨rfl, rfl, rfl, rfl⟩

/-- Witness for `move_out_of_bounds`: the 4×3 demo canvas, target (10, 0). -/
theorem move_out_of_bounds_witness :
    InBounds demo ∧
    ((10 : Int) < 0 ∨ (10 : Int) ≥ demo.width ∨ (0 : Int) < 0 ∨ (0 : Int) ≥ demo.height) ∧
    ((Canvas.Move demo 10 0).2 = some GoErr.outOfBounds ∧
     (Canvas.Move demo 10 0).1.x = demo.x ∧ (Canvas.Move demo 10 0).1.y = demo.y ∧
     (Canvas.Move demo 10 0).1.buf = demo.buf) :=
  ⟨by decide, by decide, move_out_of_bounds demo 10 0 (by decide) (by decide)⟩

/-- C5: `SetForeground`, `SetBackground` and `SetStyle` called with the
cached value change no canvas state and append nothing; in particular a
second consecutive `SetStyle StyleBold` emits nothing. -/
theorem cached_value_noop (c d : Canvas) (clr1 clr2 : Color) (s : Int)
    (hf : c.fg = clr1) (hb : c.bg = clr2) (hs : c.style = s) :
    Canvas.SetForeground c clr1 = c ∧ Canvas.SetBackground c clr2 = c ∧
    Canvas.SetStyle c s = c ∧
    Canvas.SetStyle (Canvas.SetStyle d StyleBold) StyleBold = Canvas.SetStyle d StyleBold := by
  refine ⟨?_, ?_, SetStyle_cached c s hs, SetStyle_cached _ _ (SetStyle_style d StyleBold)⟩
  · unfold Canvas.SetForeground
    rw [if_pos hf]
  · unfold Canvas.SetBackground
    rw [if_pos hb]

/-- Witness for `cached_value_noop`: the freshly built demo canvas caches
black foreground/background and the Normal style. -/
theorem cached_value_noop_witness :
    demo.fg = ColorBlack ∧ demo.bg = ColorBlack ∧ demo.style = StyleNormal ∧
    (Canvas.SetForeground demo ColorBlack = demo ∧ Canvas.SetBackground demo ColorBlack = demo ∧
     Canvas.SetStyle demo StyleNormal = demo ∧
     Canvas.SetStyle (Canvas.SetStyle demo StyleBold) StyleBold
       = Canvas.SetStyle demo StyleBold) :=
  ⟨by decide, by decide, by decide,
   cached_value_noop demo demo ColorBlack ColorBlack StyleNormal (by decide) (by decide)
     (by decide)⟩

/-- C10: a style value that differs from the cached style but has none of
the seven attribute bits set (for example `StyleNoChange` or 0) makes
`SetStyle` append nothing while still overwriting the cached style, so a
subsequent `SetStyle` with the previously cached value re-emits that
style's fragments instead of being a no-op. -/
theorem setstyle_ghost_update (c : Canvas) (s : Int) (hne : c.style ≠ s)
    (h1 : Int.land s StyleNormal = 0) (h2 : Int.land s StyleBold = 0)
    (h3 : Int.land s StyleDim = 0) (h4 : Int.land s StyleUnderlined = 0)
    (h5 : Int.land s StyleBlink = 0) (h6 : Int.land s StyleInverted = 0)
    (h7 : Int.land s StyleHidden = 0) :
    (Canvas.SetStyle c s).buf = c.buf ∧ (Canvas.SetStyle c s).style = s ∧
    Canvas.SetStyle (Canvas.SetStyle c s) c.style
      = { c with buf := c.buf ++ styleBytes c.style, style := c.style } := by
  have hsb : styleBytes s = [] := by
    unfold styleBytes
    rw [if_neg (by simp [h1]), if_neg (by simp [h2]), if_neg (by simp [h3]),
      if_neg (by simp [h4]), if_neg (by simp [h5]), if_neg (by simp [h6]),
      if_neg (by simp [h7])]
    rfl
  have hset : Canvas.SetStyle c s = { c with style := s } := by
    unfold Canvas.SetStyle
    rw [if_neg hne, hsb]
    simp
  refine ⟨by rw [hset], SetStyle_style c s, ?_⟩
  rw [hset]
  unfold Canvas.SetStyle
  rw [if_neg (by dsimp only; exact fun hh => hne hh.symm)]

/-- Witness for `setstyle_ghost_update`: the demo canvas (cached style
Normal) and the `StyleNoChange` constant. -/
theorem setstyle_ghost_update_witness :
    demo.style ≠ StyleNoChange ∧
    ((Canvas.SetStyle demo StyleNoChange).buf = demo.buf ∧
     (Canvas.SetStyle demo StyleNoChange).style = StyleNoChange ∧
     Canvas.SetStyle (Canvas.SetStyle demo StyleNoChange) demo.style
       = { demo with buf := demo.buf ++ styleBytes demo.style, style := demo.style }) :=
  ⟨by decide,
   setstyle_ghost_update demo StyleNoChange (by decide) (by decide) (by decide) (by decide)
     (by decide) (by decide) (by decide) (by decide)⟩

/-- C6: when the initial `Move` of a composite operation fails out of
bounds, `Set` silently drops the character and `WriteAt` aborts with no
further side effects: buffer, cursor and all cached values stay unchanged
(only a diagnostic is recorded), and neither returns an error to the caller
(their return type carries none). -/
theorem composite_abort_on_oob (c : Canvas) (x y : Int) (char : Char)
    (f b : Color) (s : Int) (t : List Nat)
    (hm : (Canvas.Move c x y).2 = some GoErr.outOfBounds) :
    (Canvas.Set c x y char).buf = c.buf ∧ (Canvas.Set c x y char).x = c.x ∧
    (Canvas.Set c x y char).y = c.y ∧ (Canvas.Set c x y char).fg = c.fg ∧
    (Canvas.Set c x y char).bg = c.bg ∧ (Canvas.Set c x y char).style = c.style ∧
    (Canvas.WriteAt c x y f b s t).buf = c.buf ∧ (Canvas.WriteAt c x y f b s t).x = c.x ∧
    (Canvas.WriteAt c x y f b s t).y = c.y ∧ (Canvas.WriteAt c x y f b s t).fg = c.fg ∧
    (Canvas.WriteAt c x y f b s t).bg = c.bg ∧
    (Canvas.WriteAt c x y f b s t).style = c.style := by
  have hmv : Canvas.Move c x y
      = ({ c with diags := c.diags ++ [GoErr.outOfBounds] }, some GoErr.outOfBounds) := by
    by_cases h1 : c.x = x ∧ c.y = y
    · exfalso
      unfold Canvas.Move at hm
      rw [if_pos h1] at hm
      exact absurd hm (by simp)
    · by_cases h2 : x > c.width - 1 ∨ x < 0 ∨ y > c.height - 1 ∨ y < 0
      · unfold Canvas.Move
        rw [if_neg h1, if_pos h2]
      · exfalso
        unfold Canvas.Move at hm
        rw [if_neg h1, if_neg h2] at hm
        exact absurd hm (by simp)
  have hset : Canvas.Set c x y char = { c with diags := c.diags ++ [GoErr.outOfBounds] } := by
    unfold Canvas.Set
    rw [hmv]
  have hwa : Canvas.WriteAt c x y f b s t
      = { c with diags := c.diags ++ [GoErr.outOfBounds] } := by
    unfold Canvas.WriteAt
    rw [hmv]
  rw [hset, hwa]
  exact ⟨rfl, rfl, rfl, rfl, rfl, rfl, rfl, rfl, rfl, rfl, rfl, rfl⟩

/-- Witness for `composite_abort_on_oob`: the demo canvas with the
out-of-bounds target (10, 0). -/
theorem composite_abort_on_oob_witness :
    (Canvas.Move demo 10 0).2 = some GoErr.outOfBounds ∧
    ((Canvas.Set demo 10 0 'X').buf = demo.buf ∧ (Canvas.Set demo 10 0 'X').x = demo.x ∧
     (Canvas.Set demo 10 0 'X').y = demo.y ∧ (Canvas.Set demo 10 0 'X').fg = demo.fg ∧
     (Canvas.Set demo 10 0 'X').bg = demo.bg ∧ (Canvas.Set demo 10 0 'X').style = demo.style ∧
     (Canvas.WriteAt demo 10 0 ColorRed ColorBlue StyleBold [104]).buf = demo.buf ∧
     (Canvas.WriteAt demo 10 0 ColorRed ColorBlue StyleBold [104]).x = demo.x ∧
     (Canvas.WriteAt demo 10 0 ColorRed ColorBlue StyleBold [104]).y = demo.y ∧
     (Canvas.WriteAt demo 10 0 ColorRed ColorBlue StyleBold [104]).fg = demo.fg ∧
     (Canvas.WriteAt demo 10 0 ColorRed ColorBlue StyleBold [104]).bg = demo.bg ∧
     (Canvas.WriteAt demo 10 0 ColorRed ColorBlue StyleBold [104]).style = demo.style) :=
  ⟨by decide,
   composite_abort_on_oob demo 10 0 'X' ColorRed ColorBlue StyleBold [104] (by decide)⟩

/-- C7: with the cursor-to-end option enabled, `Flush` first moves the
cursor to (width−1, height−1), writes the entire pending buffer (that of
the moved canvas) as the single output, and leaves the pending buffer
empty afterwards. -/
theorem flush_cursor_on_end (c : Canvas) (hc : InBounds c) (he : c.cursorOnEnd = true) :
    (Canvas.Flush c).1.x = c.width - 1 ∧ (Canvas.Flush c).1.y = c.height - 1 ∧
    (Canvas.Flush c).2 = (Canvas.Move c (c.width - 1) (c.height - 1)).1.buf ∧
    (Canvas.Flush c).1.buf = [] := by
  obtain ⟨hx0, hx1, hy0, hy1⟩ := hc
  have hmv : (Canvas.Move c (c.width - 1) (c.height - 1)).1.x = c.width - 1 ∧
      (Canvas.Move c (c.width - 1) (c.height - 1)).1.y = c.height - 1 := by
    unfold Canvas.Move
    split
    · next h => exact ⟨h.1, h.2⟩
    · split
      · next hb => exfalso; omega
      · exact ⟨rfl, rfl⟩
  unfold Canvas.Flush
  dsimp only
  rw [if_pos he]
  exact ⟨hmv.1, hmv.2, rfl, rfl⟩

/-- Witness for `flush_cursor_on_end`: the demo canvas with the
cursor-to-end option switched on. -/
theorem flush_cursor_on_end_witness :
    InBounds demoEnd ∧ demoEnd.cursorOnEnd = true ∧
    ((Canvas.Flush demoEnd).1.x = demoEnd.width - 1 ∧
     (Canvas.Flush demoEnd).1.y = demoEnd.height - 1 ∧
     (Canvas.Flush demoEnd).2
       = (Canvas.Move demoEnd (demoEnd.width - 1) (demoEnd.height - 1)).1.buf ∧
     (Canvas.Flush demoEnd).1.buf = []) :=
  ⟨by decide, by decide, flush_cursor_on_end demoEnd (by decide) (by decide)⟩

/-- C4: on a canvas with in-bounds cursor, `Write` advances the cursor by
the rune count of the text actually written, clamping to the last valid
column: the final column never reaches width, text whose rune count exactly
fills the remaining columns leaves the cursor at width−1, and the cursor
never wraps to the next row. -/
theorem write_advances_and_clamps (c : Canvas) (text : List Nat) (hc : InBounds c) :
    (Canvas.Write c text).y = c.y ∧
    (Canvas.Write c text).x =
      (if c.x + (runeCount (writtenText c text) : Int) ≥ c.width then c.width - 1
       else c.x + (runeCount (writtenText c text) : Int)) ∧
    (Canvas.Write c text).x ≤ c.width - 1 ∧
    ((runeCount text : Int) = c.width - c.x → (Canvas.Write c text).x = c.width - 1) := by
  obtain ⟨hx0, hx1, hy0, hy1⟩ := hc
  unfold Canvas.Write
  dsimp only
  by_cases hcl : c.x + (runeCount (writtenText c text) : Int) ≥ c.width
  · rw [if_pos hcl]
    unfold Canvas.Move
    rw [if_neg (by dsimp only; rintro ⟨hh, -⟩; omega), if_neg (by dsimp only; omega)]
    dsimp only
    refine ⟨rfl, by rw [if_pos hcl], by omega, fun _ => rfl⟩
  · rw [if_neg hcl]
    dsimp only
    refine ⟨rfl, by rw [if_neg hcl], by omega, ?_⟩
    intro hr
    exfalso
    have hw : writtenText c text = text := by
      unfold writtenText
      rw [if_neg (by omega)]
    rw [hw] at hcl
    omega

/-- Witness for `write_advances_and_clamps`: writing the five ASCII bytes
of "hello" on the 4×3 demo canvas. -/
theorem write_advances_and_clamps_witness :
    InBounds demo ∧
    ((Canvas.Write demo [104, 101, 108, 108, 111]).y = demo.y ∧
     (Canvas.Write demo [104, 101, 108, 108, 111]).x =
       (if demo.x + (runeCount (writtenText demo [104, 101, 108, 108, 111]) : Int) ≥ demo.width
        then demo.width - 1
        else demo.x + (runeCount (writtenText demo [104, 101, 108, 108, 111]) : Int)) ∧
     (Canvas.Write demo [104, 101, 108, 108, 111]).x ≤ demo.width - 1 ∧
     ((runeCount [104, 101, 108, 108, 111] : Int) = demo.width - demo.x →
       (Canvas.Write demo [104, 101, 108, 108, 111]).x = demo.width - 1)) :=
  ⟨by decide, write_advances_and_clamps demo [104, 101, 108, 108, 111] (by decide)⟩

/-- C3 (code-bug demonstration): on a fresh 3×1 canvas, writing "éééa"
(rune count 4, remaining columns 3) signals `Truncated` but appends the
first 3 BYTES [195, 169, 195] — splitting the second two-byte rune in the
middle — whereas truncation to 3 whole characters, as the claim and §9 of
the spec state, would append [195, 169, 195, 169, 195, 169]. -/
theorem write_truncation_byte_slice_demo :
    (Canvas.Write demo3 textEEEA).buf = [195, 169, 195] ∧
    (Canvas.Write demo3 textEEEA).diags = [GoErr.truncated] ∧
    runeTake 3 textEEEA = [195, 169, 195, 169, 195, 169] ∧
    (Canvas.Write demo3 textEEEA).buf ≠ demo3.buf ++ runeTake 3 textEEEA := by
  decide

/-- C8: after construction with positive dimensions, the cached cursor is
in bounds, and every sequence of public operations keeps it in bounds; the
only out-of-range cursor state is the single transient one inside
`NewCanvas` before the forced first `Move(0,0)`, where x is deliberately
set to width — one past the valid range — so that the first `Move` always
emits a motion sequence instead of being skipped as a no-op. -/
theorem cursor_invariant (w h : Int) (bg : Color) (ops : List Op)
    (hw : 0 < w) (hh : 0 < h) :
    InBounds (applyOps (NewCanvas w h bg).1 ops) ∧
    (newCanvasPre w h bg).x = (newCanvasPre w h bg).width ∧
    ¬ InBounds (newCanvasPre w h bg) ∧
    (Canvas.Move (newCanvasPre w h bg) 0 0).2 = none ∧
    (Canvas.Move (newCanvasPre w h bg) 0 0).1.buf ≠ (newCanvasPre w h bg).buf := by
  obtain ⟨hx, hy, hwdt, hhgt, hcoe⟩ := newCanvasPre_fields w h bg
  refine ⟨applyOps_inbounds_pres _ _ (NewCanvas_inbounds w h bg hw hh), ?_, ?_, ?_, ?_⟩
  · rw [hx, hwdt]
  · intro hib
    obtain ⟨h1, h2, h3, h4⟩ := hib
    omega
  · unfold Canvas.Move
    rw [if_neg (by rintro ⟨h1, -⟩; omega), if_neg (by omega)]
  · unfold Canvas.Move
    rw [if_neg (by rintro ⟨h1, -⟩; omega), if_neg (by omega)]
    dsimp only
    intro heq
    have hne : moveBytes (newCanvasPre w h bg).x 0 "C" "D" ≠ [] := by
      rw [moveBytes_eq, if_neg (by omega)]
      exact moveFrag_ne_nil _ _
    have hpos : 0 < (moveBytes (newCanvasPre w h bg).x 0 "C" "D").length :=
      List.length_pos.mpr hne
    have hlen := congrArg List.length heq
    rw [List.append_assoc, List.length_append, List.length_append] at hlen
    omega

/-- Witness for `cursor_invariant`: a 4×3 canvas and a sequence of ten
drawing operations, including an out-of-bounds move. -/
theorem cursor_invariant_witness :
    (0 : Int) < 4 ∧ (0 : Int) < 3 ∧
    (InBounds (applyOps (NewCanvas 4 3 ColorBlack).1 demoOps) ∧
     (newCanvasPre 4 3 ColorBlack).x = (newCanvasPre 4 3 ColorBlack).width ∧
     ¬ InBounds (newCanvasPre 4 3 ColorBlack) ∧
     (Canvas.Move (newCanvasPre 4 3 ColorBlack) 0 0).2 = none ∧
     (Canvas.Move (newCanvasPre 4 3 ColorBlack) 0 0).1.buf
       ≠ (newCanvasPre 4 3 ColorBlack).buf) :=
  ⟨by decide, by decide, cursor_invariant 4 3 ColorBlack demoOps (by decide) (by decide)⟩

set_option maxRecDepth 4000 in
/-- C9: a color request given as an RGB value makes `SetForeground` and
`SetBackground` emit the set-256-color fragment whose palette index is that
of the palette entry with minimum color distance to the request, ties
broken by the lowest index; the 16 primary named colors resolve to their
canonical indices 0–15. -/
theorem rgb_min_distance_resolution (c : Canvas) (rgb : RGB) (n : Nat)
    (hr : rgb.r ≤ 255) (hg : rgb.g ≤ 255) (hb : rgb.b ≤ 255)
    (hf : c.fg ≠ { rgba := some rgb, term256 := n, isDefault := false })
    (hbg : c.bg ≠ { rgba := some rgb, term256 := n, isDefault := false }) :
    (Canvas.SetForeground c { rgba := some rgb, term256 := n, isDefault := false }).buf
      = c.buf ++ strBytes ("\x1b[38;5;" ++ toString (ColorsIndex rgb) ++ "m") ∧
    (Canvas.SetBackground c { rgba := some rgb, term256 := n, isDefault := false }).buf
      = c.buf ++ strBytes ("\x1b[48;5;" ++ toString (ColorsIndex rgb) ++ "m") ∧
    ColorsIndex rgb < 256 ∧
    (∀ j, j < 256 →
      rgbDist rgb (palette256.getD (ColorsIndex rgb) pal0)
        ≤ rgbDist rgb (palette256.getD j pal0)) ∧
    (∀ j, j < ColorsIndex rgb →
      rgbDist rgb (palette256.getD (ColorsIndex rgb) pal0)
        < rgbDist rgb (palette256.getD j pal0)) ∧
    (List.range 16).map (fun i => ColorsIndex (base16.getD i pal0)) = List.range 16 := by
  obtain ⟨hcnt, hmin, hfirst⟩ := ColorsIndex_spec rgb hr hg hb
  refine ⟨?_, ?_, hcnt, hmin, hfirst, by decide⟩
  · unfold Canvas.SetForeground
    rw [if_neg hf]
    rfl
  · unfold Canvas.SetBackground
    rw [if_neg hbg]
    rfl

set_option maxRecDepth 4000 in
/-- Witness for `rgb_min_distance_resolution`: the RGB request (250,10,10)
on the demo canvas; its resolved index beats, in particular, palette entry
9 (light red), and the 16 primary colors map to 0–15. -/
theorem rgb_min_distance_resolution_witness :
    demo.fg ≠ clrDemo ∧ demo.bg ≠ clrDemo ∧
    (Canvas.SetForeground demo clrDemo).buf
      = demo.buf ++ strBytes ("\x1b[38;5;" ++ toString (ColorsIndex ⟨250, 10, 10⟩) ++ "m") ∧
    ColorsIndex ⟨250, 10, 10⟩ < 256 ∧
    rgbDist ⟨250, 10, 10⟩ (palette256.getD (ColorsIndex ⟨250, 10, 10⟩) pal0)
      ≤ rgbDist ⟨250, 10, 10⟩ (palette256.getD 9 pal0) ∧
    (List.range 16).map (fun i => ColorsIndex (base16.getD i pal0)) = List.range 16 :=
  ⟨by decide, by decide,
   (rgb_min_distance_resolution demo ⟨250, 10, 10⟩ 0 (by decide) (by decide) (by decide)
     (by decide) (by decide)).1,
   (rgb_min_distance_resolution demo ⟨250, 10, 10⟩ 0 (by decide) (by decide) (by decide)
     (by decide) (by decide)).2.2.1,
   (rgb_min_distance_resolution demo ⟨250, 10, 10⟩ 0 (by decide) (by decide) (by decide)
     (by decide) (by decide)).2.2.2.1 9 (by decide),
   (rgb_min_distance_resolution demo ⟨250, 10, 10⟩ 0 (by decide) (by decide) (by decide)
     (by decide) (by decide)).2.2.2.2.2⟩

